import Mathlib

/-!
# Deckflow frontend and orchestrator: verification of spec claims

Shallow embedding of the Deckflow repository's data model and operations,
translated from the TypeScript sources under `frontend/src` (and, for the
backend orchestrator whose code is absent from the sources, modelled from
the specification's words).  Strings stand for JavaScript strings, `Nat`
for non-negative JavaScript numbers, `Int` for millisecond timestamps.
-/

set_option autoImplicit false

namespace Deckflow

/-! ## JavaScript string primitives

The JS string methods the frontend uses (`split`, `pop`, `toLowerCase`,
`trim`), embedded structurally over the string's character list so that
every definition evaluates inside the kernel. -/

/-- JS `String.prototype.split` with a single-character separator, over the
character list; the result is always a non-empty list (splitting the empty
string yields `[""]`, as in JS). -/
def splitChars (sep : Char) : List Char → List (List Char)
  | [] => [[]]
  | c :: cs =>
      match splitChars sep cs with
      | [] => if c = sep then [[], []] else [[c]]
      | h :: t => if c = sep then [] :: h :: t else (c :: h) :: t

/-- JS `split` on a string, producing strings. -/
def jsSplit (s : String) (sep : Char) : List String :=
  (splitChars sep s.data).map String.mk

/-- JS `String.prototype.toLowerCase` (ASCII case mapping suffices for the
names involved). -/
def jsToLower (s : String) : String :=
  String.mk (s.data.map Char.toLower)

/-- JS `String.prototype.trim`: strips leading and trailing whitespace. -/
def jsTrim (s : String) : String :=
  String.mk (((s.data.dropWhile Char.isWhitespace).reverse.dropWhile
    Char.isWhitespace).reverse)

/-! ## Wire-visible status enumerations (claim C1)

Each `... StatusValues` list is the literal union type of a `status` field
declared in the frontend sources. -/

/-- The eight-value status enum the specification declares as wire-visible. -/
def specStatusEnum : List String :=
  ["starting", "planning", "writing", "rendering", "modifying", "completed", "failed", "cancelled"]

/-- `DeckStatus.status` union from `frontend/src/app/decks/[id]/preview/types.ts`. -/
def sharedDeckStatusValues : List String :=
  ["starting", "planning", "writing", "rendering", "modifying", "completed", "failed", "cancelled"]

/-- `DeckStatus.status` union declared inline in
`frontend/src/app/decks/[id]/preview/page.tsx`. -/
def previewDeckStatusValues : List String :=
  ["completed", "modifying", "generating", "failed", "cancelled"]

/-- `Deck.status` union from `frontend/src/app/decks/page.tsx`. -/
def decksPageDeckStatusValues : List String :=
  ["generating", "completed", "failed", "cancelled"]

/-! ## File validation (claim C8)

Translated from `validateFile` in `frontend/src/components/FileUpload.tsx`. -/

/-- `allowedExtensions` from `FileUpload.tsx`. -/
def allowedExtensions : List String :=
  [".txt", ".md", ".pdf", ".docx", ".doc", ".jpg", ".jpeg", ".png", ".gif", ".bmp"]

/-- `maxFileSize` from `FileUpload.tsx` (10 MB). -/
def maxFileSize : Nat := 10 * 1024 * 1024

/-- The extension string `validateFile` computes:
JavaScript `'.' + file.name.split('.').pop()?.toLowerCase()`.
`split('.')` always yields a non-empty array, so `pop()` is the last
dot-separated component (the whole name when the name has no dot). -/
def extensionOf (name : String) : String :=
  "." ++ jsToLower ((jsSplit name '.').getLastD "")

/-- `validateFile` from `FileUpload.tsx`: `none` means the file is accepted,
`some msg` is the alert message.  The extension check runs first. -/
def validateFile (name : String) (size : Nat) : Option String :=
  if ¬ allowedExtensions.contains (extensionOf name) then
    some ("지원하지 않는 파일 형식입니다. 허용된 확장자: " ++ String.intercalate ", " allowedExtensions)
  else if size > maxFileSize then
    some "파일 크기가 너무 큽니다. 최대 10MB까지 지원합니다."
  else
    none

/-- The acceptance rule exactly as claim C8 words it (a second definition,
kept for comparison with `validateFile`): the name must have a recognized
suffix, i.e. it contains a dot and the lowercased substring after the last
dot, prefixed with a dot, is an allowed extension; and the size is bounded. -/
def claimC8Accepts (name : String) (size : Nat) : Bool :=
  name.data.contains '.' &&
    allowedExtensions.contains ("." ++ jsToLower ((jsSplit name '.').getLastD "")) &&
    decide (size ≤ maxFileSize)

/-! ## Duration formatting (claim C10)

Translated from `formatDuration` in `frontend/src/app/decks/page.tsx`.
Timestamps are in milliseconds; JavaScript `Math.floor` on the (possibly
negative) quotient is floor division `Int.fdiv`. -/

/-- The `diffSeconds` local of `formatDuration`:
`Math.floor((end.getTime() - start.getTime()) / 1000)`. -/
def diffSecondsOf (startMs endMs : Int) : Int :=
  Int.fdiv (endMs - startMs) 1000

/-- `formatDuration` body, applied to already-parsed millisecond timestamps. -/
def formatDuration (startMs endMs : Int) : String :=
  let diffSeconds : Int := diffSecondsOf startMs endMs
  if diffSeconds < 0 then
    "계산 오류"
  else
    let t : Nat := diffSeconds.toNat
    if t < 60 then
      toString t ++ "초"
    else if t < 3600 then
      let minutes := t / 60
      let seconds := t % 60
      if seconds > 0 then
        toString minutes ++ "분 " ++ toString seconds ++ "초"
      else
        toString minutes ++ "분"
    else
      let hours := t / 3600
      let minutes := (t % 3600) / 60
      if minutes > 0 then
        toString hours ++ "시간 " ++ toString minutes ++ "분"
      else
        toString hours ++ "시간"

/-- The wrapper semantics of the optional second argument:
`const end = endTime ? new Date(endTime) : new Date()` — when no end time is
given the current time `nowMs` is used. -/
def formatDurationOpt (nowMs startMs : Int) (endMs : Option Int) : String :=
  formatDuration startMs (endMs.getD nowMs)

/-! ## Error taxonomy (spec §7) -/

/-- The error taxonomy of spec §7, used by the spec-modelled backend operations. -/
inductive ApiError where
  | validationError
  | notFoundError
  | conflictError
  | externalServiceError
deriving DecidableEq, Repr

/-! ## Slide version store (claims C3, C4)

The `SlideVersion` record is translated from
`frontend/src/app/decks/[id]/preview/types.ts`.  The store operations
themselves live in the backend, which is not among the sources, so they are
modelled from the specification (§4.3, §4.4, §6). -/

/-- `SlideVersion` from `frontend/src/app/decks/[id]/preview/types.ts`. -/
structure SlideVersion where
  version_id : String
  content : String
  timestamp : String
  is_current : Bool
  created_by : String
deriving DecidableEq, Repr

/-- Everything of a version except its `is_current` flag; used to state that
operations never mutate a recorded version's identity or content. -/
def versionKey (v : SlideVersion) : String × String × String × String :=
  (v.version_id, v.content, v.timestamp, v.created_by)

/-- Modelled from the spec: `SaveVersion(deck_id, slide_order, content,
created_by)` of the backend Version Store — append-only; the new entry
becomes current (`is_current = true`) and the previous current entry's flag
is flipped to `false`. -/
def saveVersion (versions : List SlideVersion) (vid content ts createdBy : String) :
    List SlideVersion :=
  versions.map (fun v => { v with is_current := false }) ++
    [⟨vid, content, ts, true, createdBy⟩]

/-- Modelled from the spec: a successful render stage writes the slide's
initial version with `created_by = system`. -/
def initialRender (vid content ts : String) : List SlideVersion :=
  saveVersion [] vid content ts "system"

/-- Modelled from the spec: a successful `ModifySlide` appends a new version
with `created_by = AI-modification` and flips `is_current`. -/
def aiModification (versions : List SlideVersion) (vid content ts : String) :
    List SlideVersion :=
  saveVersion versions vid content ts "AI-modification"

/-- Modelled from the spec: a manual save materializes a new version with
`created_by = manual-save`. -/
def manualSave (versions : List SlideVersion) (vid content ts : String) :
    List SlideVersion :=
  saveVersion versions vid content ts "manual-save"

/-- The version list a successful revert produces: the target version's
`is_current` becomes `true` and every other version's becomes `false`; no
entry is added, removed or otherwise changed. -/
def revertedOf (versions : List SlideVersion) (vid : String) : List SlideVersion :=
  versions.map (fun v => { v with is_current := v.version_id == vid })

/-- Modelled from the spec: `Revert(deck_id, slide_order, version_id)` of the
backend Version Store — fails with `NotFoundError` if the version id is
unknown for that slide; otherwise sets the target version's `is_current` to
`true` and every other version's to `false`, fabricating no new entry. -/
def revert (versions : List SlideVersion) (vid : String) :
    Except ApiError (List SlideVersion) :=
  if versions.any (fun v => v.version_id == vid) then
    .ok (revertedOf versions vid)
  else
    .error .notFoundError

/-- The slide's served `html_content`: the content of its current version. -/
def currentContent (versions : List SlideVersion) : Option String :=
  (versions.find? (fun v => v.is_current)).map (fun v => v.content)

/-- Exactly one entry of the version list is flagged current. -/
def exactlyOneCurrent (versions : List SlideVersion) : Prop :=
  (versions.filter (fun v => v.is_current)).length = 1

/-- The preview page offers the revert action for a listed version:
`{!version.is_current && (<button onClick={() => revertToVersion(...)}>}` in
`frontend/src/app/decks/[id]/preview/page.tsx`. -/
def revertOffered (v : SlideVersion) : Bool :=
  !v.is_current

/-! ## Client modification state machine (claim C2)

Translated from `frontend/src/app/decks/[id]/preview/page.tsx`: the
`modifyingSlides` set, the modify bar's `disabled` condition, the effect of
`handleModifySlide`, the 2-second status poll, and the focus-refresh path of
`fetchDeckData`. -/

/-- The modify bar's disabled condition (textarea and button):
`modifyingSlides.has(currentSlide + 1) || !modificationPrompt.trim()`. -/
def modifyBarDisabled (modifyingSlides : List Nat) (currentSlide : Nat) (prompt : String) :
    Bool :=
  modifyingSlides.contains (currentSlide + 1) || jsTrim prompt == ""

/-- Effect of `handleModifySlide` on `modifyingSlides`: a no-op when the
trimmed prompt is empty; when the POST succeeds, `currentSlide + 1` is added
to the set. -/
def handleModifySlide (modifyingSlides : List Nat) (currentSlide : Nat) (prompt : String)
    (responseOk : Bool) : List Nat :=
  if jsTrim prompt == "" then modifyingSlides
  else if responseOk then (currentSlide + 1) :: modifyingSlides
  else modifyingSlides

/-- One tick of the status poll: `modifyingSlides` is reset to the empty set
when `status.status === 'completed' || status.status !== 'modifying'`. -/
def pollStep (modifyingSlides : List Nat) (status : String) : List Nat :=
  if status == "completed" || status != "modifying" then [] else modifyingSlides

/-- The focus-refresh path of `fetchDeckData`: `modifyingSlides` is cleared
when the fetched status is `completed`. -/
def focusRefreshStep (modifyingSlides : List Nat) (status : String) : List Nat :=
  if status == "completed" then [] else modifyingSlides

/-- The user-visible events that touch `modifyingSlides`. -/
inductive ClientEvent where
  | submit (currentSlide : Nat) (prompt : String) (responseOk : Bool)
  | poll (status : String)
  | focusRefresh (status : String)

/-- The client transition function.  A `submit` has no effect while the
modify bar is disabled (the button cannot be clicked and the Enter handler
checks the same condition). -/
def clientStep (ms : List Nat) (e : ClientEvent) : List Nat :=
  match e with
  | .submit cur prompt ok =>
      if modifyBarDisabled ms cur prompt then ms else handleModifySlide ms cur prompt ok
  | .poll status => pollStep ms status
  | .focusRefresh status => focusRefreshStep ms status

/-- The deck's status has not yet left `modifying` at this event: every
status the client observes reads `modifying`. -/
def observesModifying (e : ClientEvent) : Prop :=
  match e with
  | .submit _ _ _ => True
  | .poll s => s = "modifying"
  | .focusRefresh s => s = "modifying"

/-- Modelled from the spec: the backend `ModifySlide` admission check —
fails with `ConflictError` if a modification is already in flight for that
exact slide, otherwise registers the slide as in flight and starts the
single-slide pipeline. -/
def modifySlideAdmit (inflight : List Nat) (slideOrder : Nat) :
    Except ApiError (List Nat) :=
  if slideOrder ∈ inflight then .error .conflictError
  else .ok (slideOrder :: inflight)

/-! ## Deck creation validation (claim C5) -/

/-- `CreateDeckRequest` prompt validation quoted in
`ARCHITECTURE_IMPROVEMENTS.md`: the Pydantic field constraints
`min_length=5, max_length=5000` apply to the raw prompt, after which the
custom validator rejects prompts that are empty once stripped (and stores
the stripped value). -/
def createDeckAccepts (prompt : String) : Bool :=
  decide (5 ≤ prompt.length) && decide (prompt.length ≤ 5000) && jsTrim prompt != ""

/-- `handleSubmit` from `frontend/src/app/page.tsx`: returns the prompt the
POST body carries, or `none` when no request is sent —
`if (!prompt.trim()) return;`. -/
def handleSubmit (prompt : String) : Option String :=
  if jsTrim prompt == "" then none else some prompt

/-! ## Deck job progress (claim C6)

The Deck Job state machine lives in the backend, absent from the sources;
modelled from the specification (§4.2, §5). -/

/-- Modelled from the spec: deck-level progress aggregate,
`progress = completed-stage-count / (slide_count × 3) × 100, rounded`. -/
def progressOf (completedStages slideCount : Nat) : Nat :=
  (completedStages * 100 + (3 * slideCount) / 2) / (3 * slideCount)

/-- Modelled from the spec: the deck-level state a Deck Job owns. -/
structure DeckJobState where
  slideCount : Nat
  completedStages : Nat
  status : String
deriving DecidableEq, Repr

/-- The terminal statuses of a generation pass. -/
def terminalStatus (s : String) : Bool :=
  s == "completed" || s == "failed" || s == "cancelled"

/-- Modelled from the spec: the events the Deck Job serializes — a slide
task reporting one completed stage, and a deck-level status transition. -/
inductive JobEvent where
  | stageComplete
  | setStatus (s : String)

/-- Modelled from the spec: the Deck Job transition function.  Completed
stage counts only accumulate; nothing ever un-completes a stage, and a
terminal deck accepts no further stage reports. -/
def jobStep (st : DeckJobState) (e : JobEvent) : DeckJobState :=
  match e with
  | .stageComplete =>
      if terminalStatus st.status then st
      else { st with completedStages := st.completedStages + 1 }
  | .setStatus s => { st with status := s }

/-- The progress value a `GetStatus` read reports for a job state. -/
def deckProgress (st : DeckJobState) : Nat :=
  progressOf st.completedStages st.slideCount

/-! ## Slide addressing (claim C7)

The four slide-scoped request paths of
`frontend/src/app/decks/[id]/preview/page.tsx`, and the slide number the
page displays. -/

/-- `const slideNumber = currentSlide + 1` in `handleModifySlide`. -/
def modifySlideOrder (currentSlide : Nat) : Nat := currentSlide + 1

/-- The modify POST target for the slide displayed at index `currentSlide`. -/
def modifyRequestPath (deckId : String) (currentSlide : Nat) : String :=
  "http://localhost:8000/api/v1/decks/" ++ deckId ++ "/slides/" ++
    toString (modifySlideOrder currentSlide) ++ "/modify"

/-- The versions GET target; `fetchSlideVersions` receives the order its
call sites compute. -/
def versionsRequestPath (deckId : String) (slideOrder : Nat) : String :=
  "http://localhost:8000/api/v1/decks/" ++ deckId ++ "/slides/" ++
    toString slideOrder ++ "/versions"

/-- Every call site of `fetchSlideVersions` passes `currentSlide + 1` for the
index it is displaying (`currentSlide + 1`, `newSlide + 1`, `index + 1`). -/
def versionsSlideOrder (currentSlide : Nat) : Nat := currentSlide + 1

/-- The revert POST target: `/slides/${currentSlide + 1}/revert`. -/
def revertRequestPath (deckId : String) (currentSlide : Nat) : String :=
  "http://localhost:8000/api/v1/decks/" ++ deckId ++ "/slides/" ++
    toString (currentSlide + 1) ++ "/revert"

/-- The manual save POST target:
`/api/v1/save?deck_id=${deckId}&slide_order=${currentSlide + 1}`. -/
def saveRequestPath (deckId : String) (currentSlide : Nat) : String :=
  "http://localhost:8000/api/v1/save?deck_id=" ++ deckId ++ "&slide_order=" ++
    toString (currentSlide + 1)

/-- The slide number shown to the user: `{currentSlide + 1} / {...}`. -/
def displayedSlideNumber (currentSlide : Nat) : Nat := currentSlide + 1

/-! ## Slide navigation (claim C9) -/

/-- `nextSlide` from `frontend/src/app/decks/[id]/preview/page.tsx`:
advances only while `currentSlide < deckData.slides.length - 1`. -/
def nextSlide (slideCount currentSlide : Nat) : Nat :=
  if currentSlide < slideCount - 1 then currentSlide + 1 else currentSlide

/-- `prevSlide`: retreats only while `currentSlide > 0`. -/
def prevSlide (currentSlide : Nat) : Nat :=
  if currentSlide > 0 then currentSlide - 1 else currentSlide

/-- The previous button's disabled condition: `currentSlide === 0`. -/
def prevDisabled (currentSlide : Nat) : Bool :=
  currentSlide == 0

/-- The next button's disabled condition:
`currentSlide === deckData.slides.length - 1`. -/
def nextDisabled (slideCount currentSlide : Nat) : Bool :=
  currentSlide == slideCount - 1

/-- A navigation click. -/
inductive NavMove where
  | next
  | prev

/-- The navigation transition function. -/
def navStep (slideCount currentSlide : Nat) (m : NavMove) : Nat :=
  match m with
  | .next => nextSlide slideCount currentSlide
  | .prev => prevSlide currentSlide

/-! ## Claim C1: wire-visible status enumeration -/

/-- C1 counterexample: the claim says every wire-facing status snapshot type
admits exactly the eight spec values and in particular never `generating`;
but the decks-list page's `Deck` type and the preview page's inline
`DeckStatus` type both admit `generating`, which is outside the spec enum
(and both omit `starting`). -/
theorem c1_status_enum_counterexample :
    "generating" ∈ decksPageDeckStatusValues ∧
    "generating" ∈ previewDeckStatusValues ∧
    "generating" ∉ specStatusEnum ∧
    "starting" ∈ specStatusEnum ∧
    "starting" ∉ decksPageDeckStatusValues := by
  decide

/-- C1 (amended): only the shared snapshot type in `preview/types.ts` admits
exactly the eight statuses `starting | planning | writing | rendering |
modifying | completed | failed | cancelled`; the decks-list page's `Deck`
type admits `generating | completed | failed | cancelled` and the preview
page's inline `DeckStatus` admits `completed | modifying | generating |
failed | cancelled`, each containing the extra value `generating`. -/
theorem c1_status_enums_amended :
    sharedDeckStatusValues = specStatusEnum ∧
    decksPageDeckStatusValues = ["generating", "completed", "failed", "cancelled"] ∧
    previewDeckStatusValues = ["completed", "modifying", "generating", "failed", "cancelled"] ∧
    "generating" ∈ decksPageDeckStatusValues ∧
    "generating" ∈ previewDeckStatusValues ∧
    "generating" ∉ specStatusEnum := by
  decide

/-! ## Claim C5: deck-creation prompt validation -/

/-- C5 counterexample: the claim says a creation request is accepted only
when the trimmed prompt has length between 5 and 5000; but the prompt
`"ab     "` (raw length 7, trimmed length 2) is accepted, because the
Pydantic length bounds apply to the raw prompt while the validator only
rejects prompts that are empty after stripping. -/
theorem c5_create_deck_counterexample :
    createDeckAccepts "ab     " = true ∧
    (jsTrim "ab     ").length = 2 ∧
    ¬ 5 ≤ (jsTrim "ab     ").length := by
  decide

/-- C5 (amended): a deck creation request is accepted exactly when the raw
prompt length is between 5 and 5000 and the trimmed prompt is non-empty;
and the client-side submit handler sends no request whenever the trimmed
prompt is empty. -/
theorem c5_create_deck_validation_amended (prompt : String) :
    (createDeckAccepts prompt = true ↔
      (5 ≤ prompt.length ∧ prompt.length ≤ 5000) ∧ jsTrim prompt ≠ "") ∧
    (handleSubmit prompt = none ↔ jsTrim prompt = "") := by
  constructor
  · simp [createDeckAccepts]
  · by_cases h : jsTrim prompt = "" <;> simp [handleSubmit, h]

/-- Witness for `c5_create_deck_validation_amended` at the concrete prompt
`"AI product roadmap pitch"`. -/
theorem c5_create_deck_validation_amended_witness :
    (createDeckAccepts "AI product roadmap pitch" = true ↔
      (5 ≤ ("AI product roadmap pitch" : String).length ∧
        ("AI product roadmap pitch" : String).length ≤ 5000) ∧
      jsTrim "AI product roadmap pitch" ≠ "") ∧
    (handleSubmit "AI product roadmap pitch" = none ↔
      jsTrim "AI product roadmap pitch" = "") :=
  c5_create_deck_validation_amended "AI product roadmap pitch"

/-! ## Claim C7: 1-based slide addressing -/

/-- C7: the slide displayed at zero-based index `i` is shown to the user as
slide `i + 1`, and all four slide-scoped request paths (modify, list
versions, revert, manual save) address it by the same 1-based order
`i + 1`. -/
theorem c7_slide_order_consistency (deckId : String) (i : Nat) :
    displayedSlideNumber i = i + 1 ∧
    modifySlideOrder i = displayedSlideNumber i ∧
    versionsSlideOrder i = displayedSlideNumber i ∧
    modifyRequestPath deckId i =
      "http://localhost:8000/api/v1/decks/" ++ deckId ++ "/slides/" ++
        toString (displayedSlideNumber i) ++ "/modify" ∧
    versionsRequestPath deckId (versionsSlideOrder i) =
      "http://localhost:8000/api/v1/decks/" ++ deckId ++ "/slides/" ++
        toString (displayedSlideNumber i) ++ "/versions" ∧
    revertRequestPath deckId i =
      "http://localhost:8000/api/v1/decks/" ++ deckId ++ "/slides/" ++
        toString (displayedSlideNumber i) ++ "/revert" ∧
    saveRequestPath deckId i =
      "http://localhost:8000/api/v1/save?deck_id=" ++ deckId ++ "&slide_order=" ++
        toString (displayedSlideNumber i) :=
  ⟨rfl, rfl, rfl, rfl, rfl, rfl, rfl⟩

/-! ## Claim C8: file validation -/

/-- C8 counterexample: the claim says a name without a recognized suffix is
always rejected; but a file whose whole name is `txt` (no dot at all) is
accepted, because `split('.').pop()` on a dotless name returns the whole
name, making the computed extension `.txt`. -/
theorem c8_validate_file_counterexample :
    validateFile "txt" 0 = none ∧
    claimC8Accepts "txt" 0 = false ∧
    ("txt" : String).data.contains '.' = false := by
  decide

/-- C8 (amended): `validateFile` accepts a file iff the computed extension —
a dot plus the lowercased last dot-separated component of the name, which
for a dotless name is the whole name — is in the allowed list and the size
is at most 10 MB; when the extension is not allowed the extension error is
returned regardless of size, and otherwise an oversize file gets the size
error. -/
theorem c8_validate_file_amended (name : String) (size : Nat) :
    (validateFile name size = none ↔
      extensionOf name ∈ allowedExtensions ∧ size ≤ maxFileSize) ∧
    (extensionOf name ∉ allowedExtensions →
      validateFile name size =
        some ("지원하지 않는 파일 형식입니다. 허용된 확장자: " ++
          String.intercalate ", " allowedExtensions)) ∧
    (extensionOf name ∈ allowedExtensions → maxFileSize < size →
      validateFile name size = some "파일 크기가 너무 큽니다. 최대 10MB까지 지원합니다.") := by
  refine ⟨?_, ?_, ?_⟩
  · by_cases hm : extensionOf name ∈ allowedExtensions
    · by_cases hlt : maxFileSize < size
      · simp [validateFile, hm, hlt]
      · simp [validateFile, hm, hlt]
        omega
    · simp [validateFile, hm]
  · intro hm
    simp [validateFile, hm]
  · intro hm hlt
    simp [validateFile, hm, hlt]

/-- Witness for `c8_validate_file_amended`: a `.exe` name is rejected with
the extension message even at size 0, and an oversize `.PNG` file is
rejected with the size message. -/
theorem c8_validate_file_amended_witness :
    validateFile "notes.exe" 0 =
      some ("지원하지 않는 파일 형식입니다. 허용된 확장자: " ++
        String.intercalate ", " allowedExtensions) ∧
    validateFile "photo.PNG" (maxFileSize + 1) =
      some "파일 크기가 너무 큽니다. 최대 10MB까지 지원합니다." :=
  ⟨(c8_validate_file_amended "notes.exe" 0).2.1 (by decide),
   (c8_validate_file_amended "photo.PNG" (maxFileSize + 1)).2.2 (by decide) (by decide)⟩

/-! ## Claim C9: slide index bounds -/

/-- One navigation click keeps the index within `[0, slideCount - 1]`. -/
theorem navStep_le (n i : Nat) (m : NavMove) (h : i ≤ n - 1) :
    navStep n i m ≤ n - 1 := by
  cases m <;> simp [navStep, nextSlide, prevSlide] <;> split_ifs <;> omega

/-- Any finite sequence of navigation clicks keeps the index within
`[0, slideCount - 1]`. -/
theorem foldl_navStep_le (n : Nat) (moves : List NavMove) :
    ∀ i, i ≤ n - 1 → moves.foldl (navStep n) i ≤ n - 1 := by
  induction moves with
  | nil => intro i h; simpa using h
  | cons m ms ih => intro i h; simpa using ih _ (navStep_le n i m h)

/-- C9: for a deck with `n ≥ 1` slides, any index within bounds stays within
bounds under any finite sequence of next/prev clicks — in particular any
sequence starting from index 0 — `nextSlide` at the last index and
`prevSlide` at index 0 are no-ops, and the two buttons are disabled exactly
at the respective boundary indices. -/
theorem c9_slide_index_bounds (n i : Nat) (_hn : 1 ≤ n) (hi : i ≤ n - 1)
    (moves : List NavMove) :
    moves.foldl (navStep n) i ≤ n - 1 ∧
    moves.foldl (navStep n) 0 ≤ n - 1 ∧
    nextSlide n (n - 1) = n - 1 ∧
    prevSlide 0 = 0 ∧
    (prevDisabled i = true ↔ i = 0) ∧
    (nextDisabled n i = true ↔ i = n - 1) := by
  refine ⟨foldl_navStep_le n moves i hi, foldl_navStep_le n moves 0 (by omega),
    ?_, rfl, ?_, ?_⟩
  · simp [nextSlide]
  · simp [prevDisabled]
  · simp [nextDisabled]

/-- Witness for `c9_slide_index_bounds` on a 5-slide deck at index 4 with a
concrete click sequence. -/
theorem c9_slide_index_bounds_witness :
    [NavMove.next, NavMove.prev, NavMove.prev].foldl (navStep 5) 4 ≤ 5 - 1 ∧
    [NavMove.next, NavMove.prev, NavMove.prev].foldl (navStep 5) 0 ≤ 5 - 1 ∧
    nextSlide 5 (5 - 1) = 5 - 1 ∧
    prevSlide 0 = 0 ∧
    (prevDisabled 4 = true ↔ 4 = 0) ∧
    (nextDisabled 5 4 = true ↔ 4 = 5 - 1) :=
  c9_slide_index_bounds 5 4 (by decide) (by decide)
    [NavMove.next, NavMove.prev, NavMove.prev]

/-! ## Claim C10: duration formatting -/

/-- C10: `formatDuration` is total and bucketed on
`s = floor((end - start) / 1000)` exactly as claimed, and omitting the end
time uses the current time as end. -/
theorem c10_format_duration_buckets (startMs endMs : Int) :
    (diffSecondsOf startMs endMs < 0 →
      formatDuration startMs endMs = "계산 오류") ∧
    (0 ≤ diffSecondsOf startMs endMs → diffSecondsOf startMs endMs < 60 →
      formatDuration startMs endMs =
        toString (diffSecondsOf startMs endMs).toNat ++ "초") ∧
    (60 ≤ diffSecondsOf startMs endMs → diffSecondsOf startMs endMs < 3600 →
      ((diffSecondsOf startMs endMs).toNat % 60 ≠ 0 →
        formatDuration startMs endMs =
          toString ((diffSecondsOf startMs endMs).toNat / 60) ++ "분 " ++
            toString ((diffSecondsOf startMs endMs).toNat % 60) ++ "초") ∧
      ((diffSecondsOf startMs endMs).toNat % 60 = 0 →
        formatDuration startMs endMs =
          toString ((diffSecondsOf startMs endMs).toNat / 60) ++ "분")) ∧
    (3600 ≤ diffSecondsOf startMs endMs →
      (((diffSecondsOf startMs endMs).toNat % 3600) / 60 ≠ 0 →
        formatDuration startMs endMs =
          toString ((diffSecondsOf startMs endMs).toNat / 3600) ++ "시간 " ++
            toString (((diffSecondsOf startMs endMs).toNat % 3600) / 60) ++ "분") ∧
      (((diffSecondsOf startMs endMs).toNat % 3600) / 60 = 0 →
        formatDuration startMs endMs =
          toString ((diffSecondsOf startMs endMs).toNat / 3600) ++ "시간")) ∧
    formatDurationOpt endMs startMs none = formatDuration startMs endMs := by
  refine ⟨?_, ?_, ?_, ?_, rfl⟩
  · intro h
    simp only [formatDuration]
    rw [if_pos h]
  · intro h0 h60
    simp only [formatDuration]
    rw [if_neg (by omega), if_pos (by omega)]
  · intro h60 h3600
    constructor
    · intro hr
      simp only [formatDuration]
      rw [if_neg (by omega), if_neg (by omega), if_pos (by omega), if_pos (by omega)]
    · intro hr
      simp only [formatDuration]
      rw [if_neg (by omega), if_neg (by omega), if_pos (by omega), if_neg (by omega)]
  · intro h3600
    constructor
    · intro hr
      simp only [formatDuration]
      rw [if_neg (by omega), if_neg (by omega), if_neg (by omega), if_pos (by omega)]
    · intro hr
      simp only [formatDuration]
      rw [if_neg (by omega), if_neg (by omega), if_neg (by omega), if_neg (by omega)]

/-- Witness for `c10_format_duration_buckets`: 65 elapsed seconds format as
`1분 5초`. -/
theorem c10_format_duration_witness :
    formatDuration 0 65000 = "1분 5초" := by
  have h := ((c10_format_duration_buckets 0 65000).2.2.1 (by decide) (by decide)).1
    (by decide)
  exact h.trans (by decide)

/-! ## Claim C2: single writer per slide -/

/-- A poll that still reads `modifying` leaves `modifyingSlides` unchanged. -/
theorem pollStep_modifying (ms : List Nat) : pollStep ms "modifying" = ms := rfl

/-- A focus refresh that still reads `modifying` leaves `modifyingSlides`
unchanged. -/
theorem focusRefreshStep_modifying (ms : List Nat) :
    focusRefreshStep ms "modifying" = ms := rfl

/-- A slide registered in `modifyingSlides` survives any single client event
whose observed status still reads `modifying`. -/
theorem mem_clientStep (ms : List Nat) (e : ClientEvent) (n : Nat)
    (hn : n ∈ ms) (he : observesModifying e) : n ∈ clientStep ms e := by
  cases e with
  | submit cur prompt ok =>
      simp only [clientStep]
      split
      · exact hn
      · simp only [handleModifySlide]
        split
        · exact hn
        · split
          · exact List.mem_cons_of_mem _ hn
          · exact hn
  | poll s =>
      simp only [observesModifying] at he
      subst he
      simpa [clientStep, pollStep_modifying] using hn
  | focusRefresh s =>
      simp only [observesModifying] at he
      subst he
      simpa [clientStep, focusRefreshStep_modifying] using hn

/-- A slide registered in `modifyingSlides` survives any event sequence in
which every observed status still reads `modifying`. -/
theorem mem_foldl_clientStep (n : Nat) (es : List ClientEvent) :
    ∀ ms, n ∈ ms → (∀ e ∈ es, observesModifying e) →
      n ∈ es.foldl clientStep ms := by
  induction es with
  | nil =>
      intro ms hn _
      simpa using hn
  | cons e tl ih =>
      intro ms hn hall
      simp only [List.foldl_cons]
      exact ih _ (mem_clientStep ms e n hn (hall e (List.mem_cons_self e tl)))
        (fun x hx => hall x (List.mem_cons_of_mem e hx))

/-- C2: the backend admits a `ModifySlide` for a slide not in flight and
rejects a second call on the same slide with `ConflictError` while the first
is in flight; on the client, once slide `n` is in `modifyingSlides` it stays
there across any events during which every observed deck status still reads
`modifying`, and the modify bar for slide `n` stays disabled — so at most
one modification is pending per slide at a time. -/
theorem c2_single_writer_per_slide
    (inflight : List Nat) (slideOrder : Nat) (hfresh : slideOrder ∉ inflight)
    (ms : List Nat) (n : Nat) (hn : n ∈ ms) (hpos : 1 ≤ n)
    (es : List ClientEvent) (hes : ∀ e ∈ es, observesModifying e)
    (prompt : String) :
    modifySlideAdmit inflight slideOrder = .ok (slideOrder :: inflight) ∧
    modifySlideAdmit (slideOrder :: inflight) slideOrder = .error .conflictError ∧
    n ∈ es.foldl clientStep ms ∧
    modifyBarDisabled (es.foldl clientStep ms) (n - 1) prompt = true := by
  refine ⟨?_, ?_, mem_foldl_clientStep n es ms hn hes, ?_⟩
  · simp [modifySlideAdmit, hfresh]
  · simp [modifySlideAdmit]
  · have hmem := mem_foldl_clientStep n es ms hn hes
    simp only [modifyBarDisabled, Bool.or_eq_true]
    left
    rw [Nat.sub_add_cancel hpos]
    simpa using hmem

/-- Witness for `c2_single_writer_per_slide`: slide 3 accepted while no
modification is in flight, then rejected; on the client, slide 3 stays
registered and disabled across a `modifying` poll and an attempted second
submit. -/
theorem c2_single_writer_per_slide_witness :
    modifySlideAdmit [] 3 = .ok [3] ∧
    modifySlideAdmit [3] 3 = .error .conflictError ∧
    3 ∈ [ClientEvent.poll "modifying",
          ClientEvent.submit 2 "make the headline bolder" true].foldl clientStep [3] ∧
    modifyBarDisabled
      ([ClientEvent.poll "modifying",
        ClientEvent.submit 2 "make the headline bolder" true].foldl clientStep [3])
      (3 - 1) "make it pop" = true :=
  c2_single_writer_per_slide [] 3 (by decide) [3] 3 (by decide) (by decide)
    [ClientEvent.poll "modifying",
      ClientEvent.submit 2 "make the headline bolder" true]
    (by
      intro e he
      simp only [List.mem_cons, List.not_mem_nil, or_false] at he
      rcases he with h | h
      · subst h; exact rfl
      · subst h; exact trivial)
    "make it pop"

/-! ## Claims C3 and C4: version store -/

/-- Unsetting every `is_current` flag leaves nothing current. -/
theorem filter_current_unset (versions : List SlideVersion) :
    (versions.map (fun v => { v with is_current := false })).filter
      (fun u => u.is_current) = [] := by
  induction versions with
  | nil => rfl
  | cons a tl ih => simp [ih]

/-- Unsetting `is_current` flags changes no version's identity or content. -/
theorem unset_map_versionKey (versions : List SlideVersion) :
    (versions.map (fun v => { v with is_current := false })).map versionKey =
      versions.map versionKey := by
  induction versions with
  | nil => rfl
  | cons a tl ih => simp [versionKey, ih]

/-- After a save, the appended version is the unique current one. -/
theorem saveVersion_filter_current (versions : List SlideVersion)
    (vid content ts createdBy : String) :
    (saveVersion versions vid content ts createdBy).filter (fun u => u.is_current) =
      [⟨vid, content, ts, true, createdBy⟩] := by
  simp [saveVersion, List.filter_append, filter_current_unset]

/-- Reverting changes no version's identity or content. -/
theorem revertedOf_map_versionKey (versions : List SlideVersion) (vid : String) :
    (revertedOf versions vid).map versionKey = versions.map versionKey := by
  induction versions with
  | nil => rfl
  | cons a tl ih => simp [revertedOf, versionKey, ih]

/-- After a revert, every version's flag records whether it is the target. -/
theorem revertedOf_flags (versions : List SlideVersion) (vid : String) :
    ∀ u ∈ revertedOf versions vid, u.is_current = (u.version_id == vid) := by
  intro u hu
  simp only [revertedOf, List.mem_map] at hu
  obtain ⟨v, _, rfl⟩ := hu
  rfl

/-- If no listed version carries the target id, a revert leaves nothing
flagged current. -/
theorem revertedOf_filter_nil (versions : List SlideVersion) (vid : String)
    (h : ∀ v ∈ versions, v.version_id ≠ vid) :
    (revertedOf versions vid).filter (fun u => u.is_current) = [] := by
  induction versions with
  | nil => rfl
  | cons a tl ih =>
      have ha : (a.version_id == vid) = false := by
        simpa using h a (List.mem_cons_self a tl)
      have htl := ih (fun v hv => h v (List.mem_cons_of_mem a hv))
      simpa [revertedOf, List.filter_cons, ha] using htl

/-- With distinct version ids, the target is the unique current version
after a revert. -/
theorem revertedOf_filter_current (versions : List SlideVersion) (v : SlideVersion)
    (hv : v ∈ versions)
    (hnodup : (versions.map (fun u => u.version_id)).Nodup) :
    (revertedOf versions v.version_id).filter (fun u => u.is_current) =
      [{ v with is_current := true }] := by
  induction versions with
  | nil => cases hv
  | cons a tl ih =>
      have hna : a.version_id ∉ tl.map (fun u => u.version_id) :=
        (List.nodup_cons.mp hnodup).1
      rcases List.mem_cons.mp hv with rfl | hvtl
      · have hrest : (revertedOf tl v.version_id).filter (fun u => u.is_current) = [] := by
          apply revertedOf_filter_nil
          intro u hu he
          exact hna (he ▸ List.mem_map_of_mem (fun w => w.version_id) hu)
        have hhead : revertedOf (v :: tl) v.version_id =
            { v with is_current := true } :: revertedOf tl v.version_id := by
          simp [revertedOf]
        rw [hhead, List.filter_cons_of_pos (by rfl), hrest]
      · have hne : (a.version_id == v.version_id) = false := by
          simp only [beq_eq_false_iff_ne]
          intro he
          exact hna (he ▸ List.mem_map_of_mem (fun w => w.version_id) hvtl)
        have ihh := ih hvtl (List.nodup_cons.mp hnodup).2
        simpa [revertedOf, List.filter_cons, hne] using ihh

/-- If no listed version carries the target id, a revert leaves nothing for
`find?` to locate. -/
theorem revertedOf_find_nil (versions : List SlideVersion) (vid : String)
    (h : ∀ v ∈ versions, v.version_id ≠ vid) :
    (revertedOf versions vid).find? (fun u => u.is_current) = none := by
  induction versions with
  | nil => rfl
  | cons a tl ih =>
      have ha : (a.version_id == vid) = false := by
        simpa using h a (List.mem_cons_self a tl)
      have htl := ih (fun v hv => h v (List.mem_cons_of_mem a hv))
      simpa [revertedOf, List.find?_cons, ha] using htl

/-- With distinct version ids, `find?` locates the target after a revert. -/
theorem revertedOf_find_current (versions : List SlideVersion) (v : SlideVersion)
    (hv : v ∈ versions)
    (hnodup : (versions.map (fun u => u.version_id)).Nodup) :
    (revertedOf versions v.version_id).find? (fun u => u.is_current) =
      some { v with is_current := true } := by
  induction versions with
  | nil => cases hv
  | cons a tl ih =>
      have hna : a.version_id ∉ tl.map (fun u => u.version_id) :=
        (List.nodup_cons.mp hnodup).1
      rcases List.mem_cons.mp hv with rfl | hvtl
      · simp [revertedOf, List.find?_cons]
      · have hne : (a.version_id == v.version_id) = false := by
          simp only [beq_eq_false_iff_ne]
          intro he
          exact hna (he ▸ List.mem_map_of_mem (fun w => w.version_id) hvtl)
        have ihh := ih hvtl (List.nodup_cons.mp hnodup).2
        simpa [revertedOf, List.find?_cons, hne] using ihh

/-- C3: reverting to a listed version succeeds, flips `is_current` to the
target and off the previously current entry, keeps the history length and
every version's content byte-identical, creates no new entry, makes the
slide's served `html_content` exactly the target's content — and the UI
offers the revert action exactly for versions that are not current. -/
theorem c3_revert_semantics (versions : List SlideVersion) (v : SlideVersion)
    (hv : v ∈ versions)
    (hnodup : (versions.map (fun u => u.version_id)).Nodup) :
    revert versions v.version_id = .ok (revertedOf versions v.version_id) ∧
    (revertedOf versions v.version_id).length = versions.length ∧
    (revertedOf versions v.version_id).map versionKey = versions.map versionKey ∧
    (∀ u ∈ revertedOf versions v.version_id,
      u.is_current = (u.version_id == v.version_id)) ∧
    currentContent (revertedOf versions v.version_id) = some v.content ∧
    (∀ u : SlideVersion, revertOffered u = true ↔ u.is_current = false) := by
  refine ⟨?_, ?_, revertedOf_map_versionKey versions v.version_id,
    revertedOf_flags versions v.version_id, ?_, ?_⟩
  · have hany : versions.any (fun u => u.version_id == v.version_id) = true := by
      simp only [List.any_eq_true]
      exact ⟨v, hv, by simp⟩
    simp [revert, hany]
  · simp [revertedOf]
  · simp [currentContent, revertedOf_find_current versions v hv hnodup]
  · intro u
    simp [revertOffered]

/-- Witness for `c3_revert_semantics`: reverting a two-version history to
its first (non-current) version. -/
theorem c3_revert_semantics_witness :
    revert [⟨"v1", "<h1>A</h1>", "t1", false, "system"⟩,
            ⟨"v2", "<h1>B</h1>", "t2", true, "AI-modification"⟩] "v1" =
      .ok (revertedOf [⟨"v1", "<h1>A</h1>", "t1", false, "system"⟩,
            ⟨"v2", "<h1>B</h1>", "t2", true, "AI-modification"⟩] "v1") ∧
    (revertedOf [⟨"v1", "<h1>A</h1>", "t1", false, "system"⟩,
            ⟨"v2", "<h1>B</h1>", "t2", true, "AI-modification"⟩] "v1").length =
      ([⟨"v1", "<h1>A</h1>", "t1", false, "system"⟩,
            ⟨"v2", "<h1>B</h1>", "t2", true, "AI-modification"⟩] :
          List SlideVersion).length ∧
    (revertedOf [⟨"v1", "<h1>A</h1>", "t1", false, "system"⟩,
            ⟨"v2", "<h1>B</h1>", "t2", true, "AI-modification"⟩] "v1").map versionKey =
      ([⟨"v1", "<h1>A</h1>", "t1", false, "system"⟩,
            ⟨"v2", "<h1>B</h1>", "t2", true, "AI-modification"⟩] :
          List SlideVersion).map versionKey ∧
    (∀ u ∈ revertedOf [⟨"v1", "<h1>A</h1>", "t1", false, "system"⟩,
            ⟨"v2", "<h1>B</h1>", "t2", true, "AI-modification"⟩] "v1",
      u.is_current = (u.version_id == "v1")) ∧
    currentContent (revertedOf [⟨"v1", "<h1>A</h1>", "t1", false, "system"⟩,
            ⟨"v2", "<h1>B</h1>", "t2", true, "AI-modification"⟩] "v1") =
      some "<h1>A</h1>" ∧
    (∀ u : SlideVersion, revertOffered u = true ↔ u.is_current = false) :=
  c3_revert_semantics
    [⟨"v1", "<h1>A</h1>", "t1", false, "system"⟩,
     ⟨"v2", "<h1>B</h1>", "t2", true, "AI-modification"⟩]
    ⟨"v1", "<h1>A</h1>", "t1", false, "system"⟩ (by decide) (by decide)

/-- C4: every version-store operation — initial render, AI modification,
manual save, revert — leaves exactly one version flagged current, and none
of them mutates the identity or content of an existing version (saves only
append; revert only re-flags). -/
theorem c4_exactly_one_current (versions : List SlideVersion)
    (vid content ts createdBy : String) (v : SlideVersion) (hv : v ∈ versions)
    (hnodup : (versions.map (fun u => u.version_id)).Nodup) :
    exactlyOneCurrent (initialRender vid content ts) ∧
    exactlyOneCurrent (saveVersion versions vid content ts createdBy) ∧
    exactlyOneCurrent (aiModification versions vid content ts) ∧
    exactlyOneCurrent (manualSave versions vid content ts) ∧
    exactlyOneCurrent (revertedOf versions v.version_id) ∧
    (saveVersion versions vid content ts createdBy).map versionKey =
      versions.map versionKey ++ [(vid, content, ts, createdBy)] ∧
    (revertedOf versions v.version_id).map versionKey = versions.map versionKey := by
  refine ⟨?_, ?_, ?_, ?_, ?_, ?_, revertedOf_map_versionKey versions v.version_id⟩
  · simp [exactlyOneCurrent, initialRender, saveVersion_filter_current]
  · simp [exactlyOneCurrent, saveVersion_filter_current]
  · simp [exactlyOneCurrent, aiModification, saveVersion_filter_current]
  · simp [exactlyOneCurrent, manualSave, saveVersion_filter_current]
  · simp [exactlyOneCurrent, revertedOf_filter_current versions v hv hnodup]
  · simp [saveVersion, unset_map_versionKey, versionKey]

/-- Witness for `c4_exactly_one_current` on a concrete one-version history. -/
theorem c4_exactly_one_current_witness :
    exactlyOneCurrent (initialRender "v2" "<p>new</p>" "t2") ∧
    exactlyOneCurrent (saveVersion [⟨"v1", "<p>old</p>", "t1", true, "system"⟩]
      "v2" "<p>new</p>" "t2" "manual-save") ∧
    exactlyOneCurrent (aiModification [⟨"v1", "<p>old</p>", "t1", true, "system"⟩]
      "v2" "<p>new</p>" "t2") ∧
    exactlyOneCurrent (manualSave [⟨"v1", "<p>old</p>", "t1", true, "system"⟩]
      "v2" "<p>new</p>" "t2") ∧
    exactlyOneCurrent (revertedOf [⟨"v1", "<p>old</p>", "t1", true, "system"⟩] "v1") ∧
    (saveVersion [⟨"v1", "<p>old</p>", "t1", true, "system"⟩]
        "v2" "<p>new</p>" "t2" "manual-save").map versionKey =
      ([⟨"v1", "<p>old</p>", "t1", true, "system"⟩] :
          List SlideVersion).map versionKey ++ [("v2", "<p>new</p>", "t2", "manual-save")] ∧
    (revertedOf [⟨"v1", "<p>old</p>", "t1", true, "system"⟩] "v1").map versionKey =
      ([⟨"v1", "<p>old</p>", "t1", true, "system"⟩] :
          List SlideVersion).map versionKey :=
  c4_exactly_one_current [⟨"v1", "<p>old</p>", "t1", true, "system"⟩]
    "v2" "<p>new</p>" "t2" "manual-save"
    ⟨"v1", "<p>old</p>", "t1", true, "system"⟩ (by decide) (by decide)

/-! ## Claim C6: monotone deck progress -/

/-- `progressOf` is monotone in the completed-stage count. -/
theorem progressOf_mono (n : Nat) {a b : Nat} (h : a ≤ b) :
    progressOf a n ≤ progressOf b n := by
  apply Nat.div_le_div_right
  omega

/-- A job step never changes the slide count. -/
theorem jobStep_slideCount (st : DeckJobState) (e : JobEvent) :
    (jobStep st e).slideCount = st.slideCount := by
  cases e with
  | stageComplete =>
      simp only [jobStep]
      split <;> rfl
  | setStatus s => rfl

/-- A job step never decreases the completed-stage count. -/
theorem jobStep_stages_le (st : DeckJobState) (e : JobEvent) :
    st.completedStages ≤ (jobStep st e).completedStages := by
  cases e with
  | stageComplete =>
      simp only [jobStep]
      split
      · exact Nat.le_refl _
      · exact Nat.le_succ _
  | setStatus s => exact Nat.le_refl _

/-- The slide count is invariant along any event sequence. -/
theorem foldl_jobStep_slideCount (es : List JobEvent) :
    ∀ st : DeckJobState, (es.foldl jobStep st).slideCount = st.slideCount := by
  induction es with
  | nil => intro st; rfl
  | cons e tl ih =>
      intro st
      simp only [List.foldl_cons]
      exact (ih (jobStep st e)).trans (jobStep_slideCount st e)

/-- The completed-stage count never decreases along any event sequence. -/
theorem foldl_jobStep_stages (es : List JobEvent) :
    ∀ st : DeckJobState, st.completedStages ≤ (es.foldl jobStep st).completedStages := by
  induction es with
  | nil => intro st; exact Nat.le_refl _
  | cons e tl ih =>
      intro st
      simp only [List.foldl_cons]
      exact (jobStep_stages_le st e).trans (ih (jobStep st e))

/-- With at least one slide and at most `3 × slide_count` completed stages,
the rounded progress never exceeds 100. -/
theorem progressOf_le_100 (c n : Nat) (hn : 1 ≤ n) (hc : c ≤ 3 * n) :
    progressOf c n ≤ 100 := by
  unfold progressOf
  rw [Nat.div_le_iff_le_mul_add_pred (by omega)]
  omega

/-- C6: along any sequence of Deck Job events, a later `progress` read is
never smaller than an earlier one (the slide count being invariant), and a
read always lies between 0 and 100 while the completed-stage count is within
its range. -/
theorem c6_progress_monotone (st : DeckJobState) (es : List JobEvent)
    (hn : 1 ≤ st.slideCount) (hc : st.completedStages ≤ 3 * st.slideCount) :
    deckProgress st ≤ deckProgress (es.foldl jobStep st) ∧
    (es.foldl jobStep st).slideCount = st.slideCount ∧
    deckProgress st ≤ 100 := by
  refine ⟨?_, foldl_jobStep_slideCount es st, progressOf_le_100 _ _ hn hc⟩
  have h1 := foldl_jobStep_stages es st
  have h2 := foldl_jobStep_slideCount es st
  unfold deckProgress
  rw [h2]
  exact progressOf_mono st.slideCount h1

/-- Witness for `c6_progress_monotone` on a 5-slide deck mid-generation. -/
theorem c6_progress_monotone_witness :
    deckProgress ⟨5, 7, "writing"⟩ ≤
      deckProgress ([JobEvent.stageComplete, JobEvent.setStatus "rendering",
        JobEvent.stageComplete].foldl jobStep ⟨5, 7, "writing"⟩) ∧
    ([JobEvent.stageComplete, JobEvent.setStatus "rendering",
        JobEvent.stageComplete].foldl jobStep
      (⟨5, 7, "writing"⟩ : DeckJobState)).slideCount =
      (⟨5, 7, "writing"⟩ : DeckJobState).slideCount ∧
    deckProgress ⟨5, 7, "writing"⟩ ≤ 100 :=
  c6_progress_monotone ⟨5, 7, "writing"⟩
    [JobEvent.stageComplete, JobEvent.setStatus "rendering", JobEvent.stageComplete]
    (by decide) (by decide)

end Deckflow
